import Mathlib

/-!
Verification of claims about the input dispatcher and surface-flinger
components of platform_frameworks_native.

The developments below are shallow embeddings of the relevant C++ code:
pure member functions become Lean functions over an explicit state record;
stateful operations become state-passing functions; traces of the dispatch
loop become lists of atomic actions.
-/

/-! ## CompositionEngine Display (src/services/surfaceflinger/CompositionEngine/src/Display.cpp) -/

namespace CompositionEngine

/-- The three kinds of DisplayId in the compositing subsystem.
HalDisplayId.tryCast succeeds on physical and HAL-virtual ids and fails on
GPU-virtual ids. -/
inductive DisplayIdKind
  | physical
  | halVirtual
  | gpuVirtual
  deriving DecidableEq, Repr

/-- Embeds HalDisplayId.tryCast(mId).has_value(). -/
def isHalDisplayId : DisplayIdKind → Bool
  | .physical => true
  | .halVirtual => true
  | .gpuVirtual => false

/-- The observable state of a Display that Display.disconnect touches:
the id, the mIsDisconnected flag, and the number of times
HWComposer.disconnectDisplay has been invoked for this display. -/
structure DisplayState where
  mId : DisplayIdKind
  mIsDisconnected : Bool
  hwcDisconnectCalls : Nat
  deriving DecidableEq, Repr

/-- Embeds Display.disconnect (Display.cpp lines 112-122): an early return
when mIsDisconnected is already set; otherwise the flag is set and, only
when the id casts to a HalDisplayId, the hardware-composer display is
disconnected. -/
def Display.disconnect (s : DisplayState) : DisplayState :=
  if s.mIsDisconnected then s
  else
    { s with
      mIsDisconnected := true
      hwcDisconnectCalls :=
        if isHalDisplayId s.mId then s.hwcDisconnectCalls + 1
        else s.hwcDisconnectCalls }

end CompositionEngine

/-! ## FrameTarget (src/services/surfaceflinger/Scheduler/include/scheduler/FrameTargeter.h) -/

namespace Scheduler

/-- The four frame-miss flags of FrameTarget (FrameTargeter.h lines 84-87).
TracedOrdinal of bool is embedded as a plain Bool. -/
structure FrameTarget where
  mFramePending : Bool
  mFrameMissed : Bool
  mHwcFrameMissed : Bool
  mGpuFrameMissed : Bool
  deriving DecidableEq, Repr

/-- Embeds FrameTarget.isFramePending (FrameTargeter.h line 73). -/
def FrameTarget.isFramePending (t : FrameTarget) : Bool := t.mFramePending

/-- Embeds FrameTarget.didMissFrame (FrameTargeter.h line 74). -/
def FrameTarget.didMissFrame (t : FrameTarget) : Bool := t.mFrameMissed

/-- Embeds FrameTarget.didMissHwcFrame (FrameTargeter.h line 75):
mHwcFrameMissed && !mGpuFrameMissed. -/
def FrameTarget.didMissHwcFrame (t : FrameTarget) : Bool :=
  t.mHwcFrameMissed && !t.mGpuFrameMissed

end Scheduler

/-! ## Claim theorems for the surface-flinger components -/

/-- C9: Display.disconnect is idempotent. The first call on a connected
display sets mIsDisconnected and disconnects the hardware-composer display
at most once, and only when the display id casts to a HalDisplayId; every
subsequent call leaves the state unchanged. -/
theorem display_disconnect_idempotent (s : CompositionEngine.DisplayState)
    (hconn : s.mIsDisconnected = false) (hcalls : s.hwcDisconnectCalls = 0) :
    (CompositionEngine.Display.disconnect s).mIsDisconnected = true ∧
    (CompositionEngine.Display.disconnect s).hwcDisconnectCalls =
      (if CompositionEngine.isHalDisplayId s.mId then 1 else 0) ∧
    (CompositionEngine.Display.disconnect s).hwcDisconnectCalls ≤ 1 ∧
    CompositionEngine.Display.disconnect (CompositionEngine.Display.disconnect s) =
      CompositionEngine.Display.disconnect s := by
  unfold CompositionEngine.Display.disconnect
  simp [hconn, hcalls]
  split <;> simp

/-- Witness for C9: the theorem applied to a concrete physical display. -/
theorem display_disconnect_idempotent_witness :
    (CompositionEngine.Display.disconnect
      ⟨CompositionEngine.DisplayIdKind.physical, false, 0⟩).mIsDisconnected = true ∧
    (CompositionEngine.Display.disconnect
      ⟨CompositionEngine.DisplayIdKind.physical, false, 0⟩).hwcDisconnectCalls =
      (if CompositionEngine.isHalDisplayId CompositionEngine.DisplayIdKind.physical
        then 1 else 0) ∧
    (CompositionEngine.Display.disconnect
      ⟨CompositionEngine.DisplayIdKind.physical, false, 0⟩).hwcDisconnectCalls ≤ 1 ∧
    CompositionEngine.Display.disconnect (CompositionEngine.Display.disconnect
      ⟨CompositionEngine.DisplayIdKind.physical, false, 0⟩) =
      CompositionEngine.Display.disconnect
        ⟨CompositionEngine.DisplayIdKind.physical, false, 0⟩ :=
  display_disconnect_idempotent ⟨CompositionEngine.DisplayIdKind.physical, false, 0⟩ rfl rfl

/-- C10: didMissHwcFrame returns true exactly when the HWC-frame-missed flag
is set and the GPU-frame-missed flag is not; in particular a missed frame
attributed to GPU composition is never reported as an HWC frame miss while
didMissFrame still reports it as missed. -/
theorem frameTarget_didMissHwcFrame_spec (t : Scheduler.FrameTarget) :
    (t.didMissHwcFrame = true ↔ t.mHwcFrameMissed = true ∧ t.mGpuFrameMissed = false) ∧
    (t.mFrameMissed = true → t.mGpuFrameMissed = true →
      t.didMissHwcFrame = false ∧ t.didMissFrame = true) := by
  unfold Scheduler.FrameTarget.didMissHwcFrame Scheduler.FrameTarget.didMissFrame
  constructor
  · constructor
    · intro h
      simp only [Bool.and_eq_true, Bool.not_eq_true'] at h
      exact h
    · intro ⟨h1, h2⟩
      simp [h1, h2]
  · intro hm hg
    simp [hm, hg]

/-- Witness for C10: the theorem applied to the state of a missed frame
attributed to GPU composition. -/
theorem frameTarget_didMissHwcFrame_spec_witness :
    (Scheduler.FrameTarget.didMissHwcFrame ⟨true, true, false, true⟩ = false ∧
      Scheduler.FrameTarget.didMissFrame ⟨true, true, false, true⟩ = true) :=
  (frameTarget_didMissHwcFrame_spec ⟨true, true, false, true⟩).2 rfl rfl

/-! ## InputDispatcher model

The InputDispatcher implementation file is not part of this tree; only
InputDispatcher.h is. The definitions below are therefore modelled from
the specification (and from the invariant comments that do appear in the
header), as explicitly noted on each definition. -/

namespace InputDispatcherModel

/-- Modelled from the spec: shared metadata of an EventEntry (spec section 3)
as needed by the drop and ordering claims. InputDispatcher.cpp, which
constructs the concrete entries, is not in the tree. -/
structure EventEntry where
  sequenceId : Nat
  eventTime : Int
  deviceId : Nat
  isMotionDown : Bool
  hasInjectionState : Bool
  deriving DecidableEq, Repr

/-! ### C1: lock discipline of the dispatch loop -/

/-- Modelled from the spec: the atomic actions of one dispatch-thread trace
(spec sections 4.2 and 4.6). The dispatch loop body, which is in the absent
InputDispatcher.cpp, acquires the lock, performs the per-entry critical
work, then runs deferred commands; a command releases the lock, calls the
policy, and reacquires the lock before returning. -/
inductive DispatchAction
  | acquireLock
  | releaseLock
  | criticalWork
  | policyCall
  deriving DecidableEq, Repr

/-- Modelled from the spec (section 4.6): running one deferred command
releases the lock, invokes the policy, then reacquires the lock. -/
def runCommand : List DispatchAction :=
  [.releaseLock, .policyCall, .acquireLock]

/-- Modelled from the spec (section 4.2): one iteration of dispatchOnce —
acquire the lock, run the per-entry critical section, then run the n
commands queued by the handler, and finally release the lock before
parking. -/
def dispatchIteration (numCommands : Nat) : List DispatchAction :=
  [.acquireLock, .criticalWork] ++
    (List.replicate numCommands runCommand).flatten ++ [.releaseLock]

/-- Modelled from the spec: a whole dispatch-thread execution is a sequence
of loop iterations, the i-th running the given number of deferred
commands. -/
def dispatchTrace (commandCounts : List Nat) : List DispatchAction :=
  (commandCounts.map dispatchIteration).flatten

/-- Decides whether, starting from lock depth d, every policyCall in the
trace happens at lock depth zero (the lock is not held at the moment the
policy is invoked). -/
def policySafe (d : Nat) : List DispatchAction → Bool
  | [] => true
  | .acquireLock :: rest => policySafe (d + 1) rest
  | .releaseLock :: rest => policySafe (d - 1) rest
  | .criticalWork :: rest => policySafe d rest
  | .policyCall :: rest => (d == 0) && policySafe d rest

theorem policySafe_commands (rest : List DispatchAction) (n : Nat) :
    policySafe 1 ((List.replicate n runCommand).flatten ++ [.releaseLock] ++ rest) =
    policySafe 0 rest := by
  induction n with
  | zero => simp [policySafe]
  | succ k ih =>
      simp only [List.replicate_succ, List.flatten_cons, List.append_assoc]
      simp only [runCommand, List.cons_append, List.nil_append, policySafe]
      simpa using ih

theorem policySafe_iteration (rest : List DispatchAction) (n : Nat) :
    policySafe 0 (dispatchIteration n ++ rest) = policySafe 0 rest := by
  simp only [dispatchIteration, List.cons_append, List.nil_append, List.append_assoc,
    policySafe]
  exact policySafe_commands rest n

theorem policySafe_trace (counts : List Nat) :
    policySafe 0 (dispatchTrace counts) = true := by
  induction counts with
  | nil => simp [dispatchTrace, policySafe]
  | cons n ns ih =>
      simp only [dispatchTrace, List.map_cons, List.flatten_cons]
      rw [policySafe_iteration]
      exact ih

/-! ### C2: stale-event drop -/

/-- Modelled from the spec (section 4.1): an event is stale when its
eventTime predates "now minus staleEventTimeout". InputDispatcher.h line
497 declares isStaleEvent; its body is in the absent InputDispatcher.cpp. -/
def isStaleEvent (staleEventTimeout : Int) (currentTime : Int) (e : EventEntry) : Bool :=
  e.eventTime < currentTime - staleEventTimeout

/-- Modelled from the spec (sections 4.1 and 4.4): dispatching one inbound
event writes one dispatch entry, tagged with the event's sequenceId, to the
channel of each resolved target connection — unless the event is stale, in
which case it is dropped without dispatch and nothing is written. -/
def deliverEvent (staleEventTimeout currentTime : Int) (e : EventEntry)
    (targets : List Nat) : List (Nat × Nat) :=
  if isStaleEvent staleEventTimeout currentTime e then []
  else targets.map (fun t => (t, e.sequenceId))

/-- Modelled from the spec (section 4.2): the dispatch loop drains the
inbound queue front to back; each event is delivered to its resolved
targets, producing the list of (connection token, event sequenceId) channel
writes in order. -/
def runDispatch (staleEventTimeout currentTime : Int)
    (queue : List (EventEntry × List Nat)) : List (Nat × Nat) :=
  (queue.map (fun p => deliverEvent staleEventTimeout currentTime p.1 p.2)).flatten

theorem runDispatch_mem {staleEventTimeout currentTime : Int}
    {queue : List (EventEntry × List Nat)} {t n : Nat}
    (h : (t, n) ∈ runDispatch staleEventTimeout currentTime queue) :
    ∃ e targets, (e, targets) ∈ queue ∧ e.sequenceId = n ∧
      isStaleEvent staleEventTimeout currentTime e = false ∧ t ∈ targets := by
  simp only [runDispatch, List.mem_flatten, List.mem_map] at h
  obtain ⟨l, ⟨⟨e, targets⟩, hmem, hl⟩, hin⟩ := h
  subst hl
  simp only [deliverEvent] at hin
  by_cases hs : isStaleEvent staleEventTimeout currentTime e = true
  · simp [hs] at hin
  · simp only [Bool.not_eq_true] at hs
    simp only [hs, if_neg Bool.false_ne_true, List.mem_map] at hin
    obtain ⟨t', ht', heq⟩ := hin
    obtain ⟨rfl, rfl⟩ := Prod.mk.injEq .. ▸ heq
    exact ⟨e, targets, hmem, rfl, hs, by simpa using ht'⟩

/-- The lock depth after executing a list of dispatch actions, starting
from depth d. -/
def lockDepth (d : Nat) : List DispatchAction → Nat
  | [] => d
  | .acquireLock :: rest => lockDepth (d + 1) rest
  | .releaseLock :: rest => lockDepth (d - 1) rest
  | .criticalWork :: rest => lockDepth d rest
  | .policyCall :: rest => lockDepth d rest

theorem policySafe_iff (tr : List DispatchAction) : ∀ d : Nat,
    policySafe d tr = true ↔
    ∀ (i : Nat) (h : i < tr.length), tr.get ⟨i, h⟩ = .policyCall →
      lockDepth d (tr.take i) = 0 := by
  induction tr with
  | nil => intro d; simp [policySafe]
  | cons a rest ih =>
      intro d
      cases a with
      | acquireLock =>
          simp only [policySafe, ih (d + 1)]
          constructor
          · intro h i hi hp
            cases i with
            | zero => simp at hp
            | succ j =>
                simp only [List.take_succ_cons, lockDepth]
                exact h j (Nat.lt_of_succ_lt_succ hi) hp
          · intro h i hi hp
            have := h (i + 1) (Nat.succ_lt_succ hi) hp
            simpa only [List.take_succ_cons, lockDepth] using this
      | releaseLock =>
          simp only [policySafe, ih (d - 1)]
          constructor
          · intro h i hi hp
            cases i with
            | zero => simp at hp
            | succ j =>
                simp only [List.take_succ_cons, lockDepth]
                exact h j (Nat.lt_of_succ_lt_succ hi) hp
          · intro h i hi hp
            have := h (i + 1) (Nat.succ_lt_succ hi) hp
            simpa only [List.take_succ_cons, lockDepth] using this
      | criticalWork =>
          simp only [policySafe, ih d]
          constructor
          · intro h i hi hp
            cases i with
            | zero => simp at hp
            | succ j =>
                simp only [List.take_succ_cons, lockDepth]
                exact h j (Nat.lt_of_succ_lt_succ hi) hp
          · intro h i hi hp
            have := h (i + 1) (Nat.succ_lt_succ hi) hp
            simpa only [List.take_succ_cons, lockDepth] using this
      | policyCall =>
          simp only [policySafe, Bool.and_eq_true, beq_iff_eq, ih d]
          constructor
          · intro ⟨hd, h⟩ i hi hp
            cases i with
            | zero => simpa [lockDepth] using hd
            | succ j =>
                simp only [List.take_succ_cons, lockDepth]
                exact h j (Nat.lt_of_succ_lt_succ hi) hp
          · intro h
            refine ⟨?_, ?_⟩
            · have := h 0 (Nat.succ_pos _) rfl
              simpa [lockDepth] using this
            · intro i hi hp
              have := h (i + 1) (Nat.succ_lt_succ hi) hp
              simpa only [List.take_succ_cons, lockDepth] using this

end InputDispatcherModel

/-- C1: in every execution trace of the dispatch loop (any number of
iterations, each running any number of deferred commands), every policy
invocation happens at lock depth zero: the per-entry critical section runs
with the lock held, and each command releases the lock before calling the
policy and reacquires it afterwards, so the dispatcher never invokes the
policy interface while holding its internal lock. -/
theorem dispatcher_never_calls_policy_while_locked (counts : List Nat) (i : Nat)
    (h : i < (InputDispatcherModel.dispatchTrace counts).length)
    (hp : (InputDispatcherModel.dispatchTrace counts).get ⟨i, h⟩ =
      InputDispatcherModel.DispatchAction.policyCall) :
    InputDispatcherModel.lockDepth 0 ((InputDispatcherModel.dispatchTrace counts).take i) = 0 :=
  (InputDispatcherModel.policySafe_iff (InputDispatcherModel.dispatchTrace counts) 0).mp
    (InputDispatcherModel.policySafe_trace counts) i h hp

/-- Witness for C1: a trace of one iteration that runs one command; the
policy call at index 3 occurs with the lock not held. -/
theorem dispatcher_never_calls_policy_while_locked_witness :
    3 < (InputDispatcherModel.dispatchTrace [1]).length ∧
    InputDispatcherModel.lockDepth 0
      ((InputDispatcherModel.dispatchTrace [1]).take 3) = 0 :=
  ⟨by decide, dispatcher_never_calls_policy_while_locked [1] 3 (by decide) (by decide)⟩

/-- C2: an inbound event whose eventTime is older than the current time
minus staleEventTimeout is dropped without dispatch: no dispatch entry
carrying its sequenceId is ever written to any connection's channel by the
dispatch loop. -/
theorem stale_event_never_delivered (staleEventTimeout currentTime : Int)
    (queue : List (InputDispatcherModel.EventEntry × List Nat)) (n : Nat)
    (hstale : ∀ e targets, (e, targets) ∈ queue → e.sequenceId = n →
      e.eventTime < currentTime - staleEventTimeout) :
    ∀ t : Nat, (t, n) ∉ InputDispatcherModel.runDispatch staleEventTimeout currentTime queue := by
  intro t hmem
  obtain ⟨e, targets, hq, hseq, hns, -⟩ := InputDispatcherModel.runDispatch_mem hmem
  have hlt := hstale e targets hq hseq
  simp only [InputDispatcherModel.isStaleEvent, decide_eq_false_iff_not, not_lt] at hns
  exact absurd hlt (not_lt.mpr hns)

/-- Witness for C2: a concrete event 200 ns old against a 100 ns stale
timeout is never written to any connection. -/
theorem stale_event_never_delivered_witness :
    (5, 7) ∉ InputDispatcherModel.runDispatch 100 1000 [(⟨7, 800, 0, false, false⟩, [5])] :=
  stale_event_never_delivered 100 1000 [(⟨7, 800, 0, false, false⟩, [5])] 7
    (by
      intro e targets hmem hseq
      simp only [List.mem_singleton, Prod.mk.injEq] at hmem
      obtain ⟨rfl, rfl⟩ := hmem
      decide) 5


namespace InputDispatcherModel

/-! ### C3: AnrTracker invariant -/

/-- Modelled from the spec (section 3, Connection): per-consumer state as
needed by the ANR-tracker invariant — the responsiveness flag and the
waitQueue of per-connection dispatch-entry sequence numbers written to the
channel but not yet acknowledged. Connection.cpp is not in the tree. -/
structure Connection where
  responsive : Bool
  waitQueue : List Nat
  deriving DecidableEq, Repr

/-- Modelled from the spec: the dispatcher state relevant to the ANR
tracker — the connection table and the tracker's (token, sequence)
deadline registrations (spec sections 3 and 4.5; InputDispatcher.h lines
537-542 document that AnrTracker must be kept in sync with all responsive
connection waitQueues). -/
structure DispatcherState where
  conns : Nat → Option Connection
  anrTracker : List (Nat × Nat)

/-- The operations that touch the ANR tracker, modelled from the spec:
channel registration (section 3), starting a dispatch cycle (section 4.4),
acknowledgement (section 4.4), a connection passing its ANR deadline
(section 4.5), and connection teardown (section 3). -/
inductive Op
  | addConnection (token : Nat)
  | writeEntry (token seq : Nat)
  | ackEntry (token seq : Nat)
  | markUnresponsive (token : Nat)
  | destroyConnection (token : Nat)
  deriving DecidableEq, Repr

/-- Modelled from the spec (sections 4.4 and 4.5): the effect of one
operation on the connection table and the ANR tracker.
writeEntry appends to the waitQueue and registers a tracker entry only for
a responsive connection; ackEntry removes the entry from the waitQueue and
its tracker registration, and marks a drained unresponsive connection
responsive again; markUnresponsive clears the connection's tracker
entries; destroyConnection removes the connection and all its tracker
entries. -/
def applyOp (op : Op) (s : DispatcherState) : DispatcherState :=
  match op with
  | .addConnection t =>
      match s.conns t with
      | some _ => s
      | none =>
          { s with conns := fun u => if u = t then some ⟨true, []⟩ else s.conns u }
  | .writeEntry t seq =>
      match s.conns t with
      | none => s
      | some c =>
          { conns := fun u =>
              if u = t then some ⟨c.responsive, c.waitQueue ++ [seq]⟩ else s.conns u
            anrTracker :=
              if c.responsive then (t, seq) :: s.anrTracker else s.anrTracker }
  | .ackEntry t seq =>
      match s.conns t with
      | none => s
      | some c =>
          { conns := fun u =>
              if u = t then
                some ⟨c.responsive || (c.waitQueue.filter (fun x => x != seq)).isEmpty,
                  c.waitQueue.filter (fun x => x != seq)⟩
              else s.conns u
            anrTracker := s.anrTracker.filter (fun p => !(p.1 == t && p.2 == seq)) }
  | .markUnresponsive t =>
      match s.conns t with
      | none => s
      | some c =>
          { conns := fun u => if u = t then some ⟨false, c.waitQueue⟩ else s.conns u
            anrTracker := s.anrTracker.filter (fun p => p.1 != t) }
  | .destroyConnection t =>
      { conns := fun u => if u = t then none else s.conns u
        anrTracker := s.anrTracker.filter (fun p => p.1 != t) }

/-- The dispatcher starts with no registered connections and an empty ANR
tracker. -/
def initState : DispatcherState :=
  { conns := fun _ => none, anrTracker := [] }

/-- The state reached by running a sequence of operations from the initial
state. -/
def applyOps (ops : List Op) : DispatcherState :=
  ops.foldl (fun s op => applyOp op s) initState

/-- The per-entry synchronization invariant: a (token, seq) pair is
registered in the ANR tracker exactly when the connection with that token
exists, is responsive, and has seq in its waitQueue. -/
def Inv (s : DispatcherState) : Prop :=
  ∀ t seq : Nat, (t, seq) ∈ s.anrTracker ↔
    ∃ c, s.conns t = some c ∧ c.responsive = true ∧ seq ∈ c.waitQueue

theorem inv_initState : Inv initState := by
  intro t seq
  simp [initState]

theorem inv_applyOp (op : Op) (s : DispatcherState) (h : Inv s) : Inv (applyOp op s) := by
  intro t seq
  have hst := h t seq
  cases op with
  | addConnection t0 =>
      simp only [applyOp]
      cases hc : s.conns t0 with
      | some c => exact hst
      | none =>
          dsimp only
          by_cases ht : t = t0
          · subst ht
            constructor
            · intro hmem
              obtain ⟨c2, hc2, -, -⟩ := hst.mp hmem
              rw [hc] at hc2
              exact Option.noConfusion hc2
            · rintro ⟨c2, hc2, -, hmem⟩
              rw [if_pos rfl] at hc2
              injection hc2 with e
              subst e
              simp at hmem
          · constructor
            · intro hmem
              obtain ⟨c2, hc2, hresp, hmem2⟩ := hst.mp hmem
              exact ⟨c2, by rw [if_neg ht]; exact hc2, hresp, hmem2⟩
            · rintro ⟨c2, hc2, hresp, hmem⟩
              rw [if_neg ht] at hc2
              exact hst.mpr ⟨c2, hc2, hresp, hmem⟩
  | writeEntry t0 seq0 =>
      simp only [applyOp]
      cases hc : s.conns t0 with
      | none => exact hst
      | some c =>
          dsimp only
          by_cases hr : c.responsive = true
          · rw [if_pos hr]
            by_cases ht : t = t0
            · subst ht
              constructor
              · intro hmem
                rw [List.mem_cons] at hmem
                rcases hmem with heq | hmem
                · rw [Prod.mk.injEq] at heq
                  obtain ⟨-, rfl⟩ := heq
                  exact ⟨⟨c.responsive, c.waitQueue ++ [seq]⟩, by rw [if_pos rfl], hr,
                    by simp⟩
                · obtain ⟨c2, hc2, hresp, hmem2⟩ := hst.mp hmem
                  rw [hc] at hc2
                  injection hc2 with e
                  subst e
                  exact ⟨⟨c.responsive, c.waitQueue ++ [seq0]⟩, by rw [if_pos rfl], hresp,
                    by simp [hmem2]⟩
              · rintro ⟨c2, hc2, hresp, hmem⟩
                rw [if_pos rfl] at hc2
                injection hc2 with e
                subst e
                rw [List.mem_cons]
                have hmem2 := hmem
                rw [List.mem_append, List.mem_singleton] at hmem2
                rcases hmem2 with hmem2 | rfl
                · exact Or.inr (hst.mpr ⟨c, hc, hresp, hmem2⟩)
                · exact Or.inl rfl
            · constructor
              · intro hmem
                rw [List.mem_cons] at hmem
                rcases hmem with heq | hmem
                · rw [Prod.mk.injEq] at heq
                  exact absurd heq.1 ht
                · obtain ⟨c2, hc2, hresp, hmem2⟩ := hst.mp hmem
                  exact ⟨c2, by rw [if_neg ht]; exact hc2, hresp, hmem2⟩
              · rintro ⟨c2, hc2, hresp, hmem⟩
                rw [if_neg ht] at hc2
                exact List.mem_cons_of_mem _ (hst.mpr ⟨c2, hc2, hresp, hmem⟩)
          · rw [if_neg hr]
            have hr' : c.responsive = false := Bool.not_eq_true _ ▸ hr
            by_cases ht : t = t0
            · subst ht
              constructor
              · intro hmem
                obtain ⟨c2, hc2, hresp, -⟩ := hst.mp hmem
                rw [hc] at hc2
                injection hc2 with e
                subst e
                exact absurd hresp hr
              · rintro ⟨c2, hc2, hresp, -⟩
                rw [if_pos rfl] at hc2
                injection hc2 with e
                subst e
                exact absurd hresp hr
            · constructor
              · intro hmem
                obtain ⟨c2, hc2, hresp, hmem2⟩ := hst.mp hmem
                exact ⟨c2, by rw [if_neg ht]; exact hc2, hresp, hmem2⟩
              · rintro ⟨c2, hc2, hresp, hmem⟩
                rw [if_neg ht] at hc2
                exact hst.mpr ⟨c2, hc2, hresp, hmem⟩
  | ackEntry t0 seq0 =>
      simp only [applyOp]
      cases hc : s.conns t0 with
      | none => exact hst
      | some c =>
          dsimp only
          by_cases ht : t = t0
          · subst ht
            constructor
            · intro hmem
              rw [List.mem_filter] at hmem
              obtain ⟨hmem, hpred⟩ := hmem
              have hne : seq ≠ seq0 := by simpa using hpred
              obtain ⟨c2, hc2, hresp, hmem2⟩ := hst.mp hmem
              rw [hc] at hc2
              injection hc2 with e
              subst e
              refine ⟨⟨c.responsive || (c.waitQueue.filter (fun x => x != seq0)).isEmpty,
                c.waitQueue.filter (fun x => x != seq0)⟩, by rw [if_pos rfl], ?_, ?_⟩
              · simp [hresp]
              · exact List.mem_filter.mpr ⟨hmem2, by simpa using hne⟩
            · rintro ⟨c2, hc2, hresp, hmem⟩
              rw [if_pos rfl] at hc2
              injection hc2 with e
              subst e
              rcases Bool.or_eq_true_iff.mp hresp with hx | hx
              · rw [List.mem_filter] at hmem
                obtain ⟨hmem0, hne⟩ := hmem
                exact List.mem_filter.mpr
                  ⟨hst.mpr ⟨c, hc, hx, hmem0⟩, by simpa using hne⟩
              · rw [List.isEmpty_iff] at hx
                rw [hx] at hmem
                simp at hmem
          · constructor
            · intro hmem
              rw [List.mem_filter] at hmem
              obtain ⟨hmem, -⟩ := hmem
              obtain ⟨c2, hc2, hresp, hmem2⟩ := hst.mp hmem
              exact ⟨c2, by rw [if_neg ht]; exact hc2, hresp, hmem2⟩
            · rintro ⟨c2, hc2, hresp, hmem⟩
              rw [if_neg ht] at hc2
              exact List.mem_filter.mpr ⟨hst.mpr ⟨c2, hc2, hresp, hmem⟩, by simp [ht]⟩
  | markUnresponsive t0 =>
      simp only [applyOp]
      cases hc : s.conns t0 with
      | none => exact hst
      | some c =>
          dsimp only
          by_cases ht : t = t0
          · subst ht
            constructor
            · intro hmem
              rw [List.mem_filter] at hmem
              obtain ⟨-, hpred⟩ := hmem
              simp at hpred
            · rintro ⟨c2, hc2, hresp, -⟩
              rw [if_pos rfl] at hc2
              injection hc2 with e
              subst e
              simp at hresp
          · constructor
            · intro hmem
              rw [List.mem_filter] at hmem
              obtain ⟨hmem, -⟩ := hmem
              obtain ⟨c2, hc2, hresp, hmem2⟩ := hst.mp hmem
              exact ⟨c2, by rw [if_neg ht]; exact hc2, hresp, hmem2⟩
            · rintro ⟨c2, hc2, hresp, hmem⟩
              rw [if_neg ht] at hc2
              exact List.mem_filter.mpr ⟨hst.mpr ⟨c2, hc2, hresp, hmem⟩, by simp [ht]⟩
  | destroyConnection t0 =>
      simp only [applyOp]
      by_cases ht : t = t0
      · subst ht
        constructor
        · intro hmem
          rw [List.mem_filter] at hmem
          obtain ⟨-, hpred⟩ := hmem
          simp at hpred
        · rintro ⟨c2, hc2, -, -⟩
          rw [if_pos rfl] at hc2
          exact Option.noConfusion hc2
      · constructor
        · intro hmem
          rw [List.mem_filter] at hmem
          obtain ⟨hmem, -⟩ := hmem
          obtain ⟨c2, hc2, hresp, hmem2⟩ := hst.mp hmem
          exact ⟨c2, by rw [if_neg ht]; exact hc2, hresp, hmem2⟩
        · rintro ⟨c2, hc2, hresp, hmem⟩
          rw [if_neg ht] at hc2
          exact List.mem_filter.mpr ⟨hst.mpr ⟨c2, hc2, hresp, hmem⟩, by simp [ht]⟩

theorem inv_applyOps (ops : List Op) : Inv (applyOps ops) := by
  have main : ∀ (l : List Op) (s : DispatcherState), Inv s →
      Inv (l.foldl (fun s op => applyOp op s) s) := by
    intro l
    induction l with
    | nil => intro s hs; exact hs
    | cons op rest ih =>
        intro s hs
        exact ih _ (inv_applyOp op s hs)
  exact main ops initState inv_initState

end InputDispatcherModel

namespace InputDispatcherModel

theorem applyOps_append_one (ops : List Op) (op : Op) :
    applyOps (ops ++ [op]) = applyOp op (applyOps ops) := by
  simp [applyOps, List.foldl_append]

end InputDispatcherModel

/-- C3: in every reachable dispatcher state, a connection token has an
entry in the AnrTracker iff that connection exists, is responsive, and has
at least one dispatch entry written to the channel but not yet
acknowledged; the registration for a dispatch entry disappears when that
entry is acknowledged, and all of a connection's registrations disappear
when it becomes unresponsive or is destroyed. -/
theorem anrTracker_sync_invariant (ops : List InputDispatcherModel.Op) :
    (∀ t : Nat,
      (∃ p ∈ (InputDispatcherModel.applyOps ops).anrTracker, p.1 = t) ↔
      (∃ c, (InputDispatcherModel.applyOps ops).conns t = some c ∧
        c.responsive = true ∧ c.waitQueue ≠ [])) ∧
    (∀ t seq : Nat, (t, seq) ∉ (InputDispatcherModel.applyOps
        (ops ++ [InputDispatcherModel.Op.ackEntry t seq])).anrTracker) ∧
    (∀ t : Nat, ∀ p ∈ (InputDispatcherModel.applyOps
        (ops ++ [InputDispatcherModel.Op.markUnresponsive t])).anrTracker, p.1 ≠ t) ∧
    (∀ t : Nat, ∀ p ∈ (InputDispatcherModel.applyOps
        (ops ++ [InputDispatcherModel.Op.destroyConnection t])).anrTracker, p.1 ≠ t) := by
  have hinv := InputDispatcherModel.inv_applyOps ops
  refine ⟨?_, ?_, ?_, ?_⟩
  · intro t
    constructor
    · rintro ⟨⟨pt, ps⟩, hp, rfl⟩
      obtain ⟨c, hc, hresp, hmem⟩ := (hinv pt ps).mp hp
      exact ⟨c, hc, hresp, List.ne_nil_of_mem hmem⟩
    · rintro ⟨c, hc, hresp, hne⟩
      obtain ⟨seq, hseq⟩ := List.exists_mem_of_ne_nil _ hne
      exact ⟨(t, seq), (hinv t seq).mpr ⟨c, hc, hresp, hseq⟩, rfl⟩
  · intro t seq hmem
    rw [InputDispatcherModel.applyOps_append_one] at hmem
    have hinv2 := InputDispatcherModel.inv_applyOp
      (InputDispatcherModel.Op.ackEntry t seq) _ hinv
    obtain ⟨c, hc, hresp, hmemq⟩ := (hinv2 t seq).mp hmem
    simp only [InputDispatcherModel.applyOp] at hc
    cases hc0 : (InputDispatcherModel.applyOps ops).conns t with
    | none =>
        rw [hc0] at hc
        exact Option.noConfusion (hc0 ▸ hc)
    | some c0 =>
        rw [hc0] at hc
        dsimp only at hc
        rw [if_pos rfl] at hc
        injection hc with e
        subst e
        rw [List.mem_filter] at hmemq
        simp at hmemq
  · intro t p hp
    rw [InputDispatcherModel.applyOps_append_one] at hp
    have hinv2 := InputDispatcherModel.inv_applyOp
      (InputDispatcherModel.Op.markUnresponsive t) _ hinv
    intro hpt
    obtain ⟨pt, ps⟩ := p
    dsimp only at hpt
    subst hpt
    obtain ⟨c, hc, hresp, -⟩ := (hinv2 pt ps).mp hp
    simp only [InputDispatcherModel.applyOp] at hc
    cases hc0 : (InputDispatcherModel.applyOps ops).conns pt with
    | none =>
        rw [hc0] at hc
        dsimp only at hc
        rw [hc0] at hc
        exact Option.noConfusion hc
    | some c0 =>
        rw [hc0] at hc
        dsimp only at hc
        rw [if_pos rfl] at hc
        injection hc with e
        subst e
        simp at hresp
  · intro t p hp
    rw [InputDispatcherModel.applyOps_append_one] at hp
    have hinv2 := InputDispatcherModel.inv_applyOp
      (InputDispatcherModel.Op.destroyConnection t) _ hinv
    intro hpt
    obtain ⟨pt, ps⟩ := p
    dsimp only at hpt
    subst hpt
    obtain ⟨c, hc, -, -⟩ := (hinv2 pt ps).mp hp
    simp only [InputDispatcherModel.applyOp] at hc
    simp at hc

/-- Witness for C3: the invariant instantiated on the state reached by
registering connection 0 and writing one dispatch entry to it. -/
theorem anrTracker_sync_invariant_witness :
    (∃ p ∈ (InputDispatcherModel.applyOps
        [InputDispatcherModel.Op.addConnection 0,
         InputDispatcherModel.Op.writeEntry 0 1]).anrTracker, p.1 = 0) ↔
    (∃ c, (InputDispatcherModel.applyOps
        [InputDispatcherModel.Op.addConnection 0,
         InputDispatcherModel.Op.writeEntry 0 1]).conns 0 = some c ∧
      c.responsive = true ∧ c.waitQueue ≠ []) :=
  (anrTracker_sync_invariant
    [InputDispatcherModel.Op.addConnection 0,
     InputDispatcherModel.Op.writeEntry 0 1]).1 0

namespace InputDispatcherModel

/-! ### C4: cancellation completeness on channel removal -/

/-- Modelled from the spec (sections 4.7 and 8): an entry delivered to a
connection is either a synthesized CANCEL for one pointer id or a normal
entry identified by its event sequence id. -/
inductive Delivery
  | cancel (pointerId : Nat)
  | normal (eventSeq : Nat)
  deriving DecidableEq, Repr

/-- Modelled from the spec (section 3, Connection, and section 4.3
TouchState): the per-connection state relevant to mid-gesture channel
removal — whether the channel is still registered, the pointer ids the
connection currently owns, and the log of entries delivered to its
consumer in order. -/
structure ConnState where
  registered : Bool
  ownedPointers : List Nat
  delivered : List Delivery
  deriving DecidableEq, Repr

/-- Modelled from the spec (sections 3 and 4.7): removeInputChannel on a
registered connection synthesizes one CANCEL-kind entry for every pointer
id the connection owns at removal time, delivers them, releases pointer
ownership, and unregisters the connection; on an unregistered token it is
a no-op. -/
def removeInputChannel (c : ConnState) : ConnState :=
  if c.registered then
    { registered := false
      ownedPointers := []
      delivered := c.delivered ++ c.ownedPointers.map Delivery.cancel }
  else c

/-- Modelled from the spec (sections 3 and 4.4): a normal dispatch cycle
delivers an entry to a connection only while its channel is registered; a
destroyed connection receives nothing. -/
def dispatchNormalTo (c : ConnState) (eventSeq : Nat) : ConnState :=
  if c.registered then { c with delivered := c.delivered ++ [Delivery.normal eventSeq] }
  else c

theorem dispatchNormalTo_unregistered (c : ConnState) (hr : c.registered = false)
    (seqs : List Nat) : seqs.foldl dispatchNormalTo c = c := by
  induction seqs with
  | nil => rfl
  | cons a rest ih =>
      simp only [List.foldl_cons, dispatchNormalTo, hr, Bool.false_eq_true, if_neg,
        not_false_eq_true]
      exact ih

end InputDispatcherModel

/-- C4: removing a registered connection's input channel mid-gesture
delivers exactly one CANCEL-kind entry for each pointer id the connection
owned at removal time, and however many normal dispatch cycles are
attempted afterwards, no further entry of any kind is ever delivered to
that connection. -/
theorem removeInputChannel_cancels_once (c : InputDispatcherModel.ConnState)
    (hr : c.registered = true) (hnd : c.ownedPointers.Nodup) (seqs : List Nat) :
    (∀ p ∈ c.ownedPointers,
      ((seqs.foldl InputDispatcherModel.dispatchNormalTo
          (InputDispatcherModel.removeInputChannel c)).delivered.drop
        c.delivered.length).count (InputDispatcherModel.Delivery.cancel p) = 1) ∧
    (∀ d ∈ (seqs.foldl InputDispatcherModel.dispatchNormalTo
          (InputDispatcherModel.removeInputChannel c)).delivered.drop
        c.delivered.length,
      ∀ n : Nat, d ≠ InputDispatcherModel.Delivery.normal n) := by
  have hrm : InputDispatcherModel.removeInputChannel c =
      { registered := false
        ownedPointers := []
        delivered := c.delivered ++ c.ownedPointers.map InputDispatcherModel.Delivery.cancel } := by
    simp [InputDispatcherModel.removeInputChannel, hr]
  have hfix : seqs.foldl InputDispatcherModel.dispatchNormalTo
      (InputDispatcherModel.removeInputChannel c) =
      InputDispatcherModel.removeInputChannel c := by
    apply InputDispatcherModel.dispatchNormalTo_unregistered
    rw [hrm]
  rw [hfix, hrm]
  simp only [List.drop_left]
  constructor
  · intro p hp
    rw [List.count_eq_one_of_mem]
    · exact (List.nodup_map_iff (fun a b hab => by
        injection hab)).mpr hnd
    · exact List.mem_map_of_mem _ hp
  · intro d hd n
    rw [List.mem_map] at hd
    obtain ⟨p, -, rfl⟩ := hd
    exact fun hcon => InputDispatcherModel.Delivery.noConfusion hcon

/-- Witness for C4: a registered connection owning pointers 2 and 5 is
removed; each pointer gets exactly one CANCEL and two later normal
dispatch attempts deliver nothing. -/
theorem removeInputChannel_cancels_once_witness :
    (∀ p ∈ (⟨true, [2, 5], []⟩ : InputDispatcherModel.ConnState).ownedPointers,
      ((([9, 10] : List Nat).foldl InputDispatcherModel.dispatchNormalTo
          (InputDispatcherModel.removeInputChannel ⟨true, [2, 5], []⟩)).delivered.drop
        (⟨true, [2, 5], []⟩ : InputDispatcherModel.ConnState).delivered.length).count
          (InputDispatcherModel.Delivery.cancel p) = 1) ∧
    (∀ d ∈ (([9, 10] : List Nat).foldl InputDispatcherModel.dispatchNormalTo
          (InputDispatcherModel.removeInputChannel ⟨true, [2, 5], []⟩)).delivered.drop
        (⟨true, [2, 5], []⟩ : InputDispatcherModel.ConnState).delivered.length,
      ∀ n : Nat, d ≠ InputDispatcherModel.Delivery.normal n) :=
  removeInputChannel_cancels_once ⟨true, [2, 5], []⟩ rfl (by decide) [9, 10]

namespace InputDispatcherModel

/-! ### C5: per-connection FIFO dispatch order -/

/-- Modelled from the spec (sections 4.2 and 5): an inbound event as seen
by the ordering guarantee — its sequence id, its source device, and the
connections that target resolution selects for it. -/
structure InboundEvent where
  seq : Nat
  deviceId : Nat
  targets : List Nat
  deriving DecidableEq, Repr

/-- Modelled from the spec (sections 4.2, 4.4 and 5): the dispatch loop
drains the inbound queue front to back and, for each event, appends one
dispatch entry to the outbound queue of every target connection;
outboundFor gives the sequence ids enqueued for sending to a given
connection, in enqueue order. -/
def outboundFor (token : Nat) (queue : List InboundEvent) : List Nat :=
  (queue.filter (fun e => token ∈ e.targets)).map (fun e => e.seq)

end InputDispatcherModel

/-- Two designated elements in order inside a list are a sublist of it. -/
theorem sublist_pair (a b : Nat) (A B C : List Nat) :
    List.Sublist [a, b] (A ++ a :: (B ++ b :: C)) := by
  refine List.Sublist.trans ?_ (List.sublist_append_right A _)
  apply List.Sublist.cons₂
  exact List.singleton_sublist.mpr (List.mem_append_right B (List.mem_cons_self _ _))

/-- C5: dispatch to a given connection is FIFO per device-connection pair:
whenever event e1 arrived in the inbound queue before event e2, both from
the same device and both targeted at connection c, e1 is enqueued for
sending to c before e2 — e1.seq precedes e2.seq in the connection's
outbound order. -/
theorem dispatch_fifo_per_connection (pre mid post : List InputDispatcherModel.InboundEvent)
    (e1 e2 : InputDispatcherModel.InboundEvent) (c : Nat)
    (_hdev : e1.deviceId = e2.deviceId)
    (h1 : c ∈ e1.targets) (h2 : c ∈ e2.targets) :
    List.Sublist [e1.seq, e2.seq]
      (InputDispatcherModel.outboundFor c (pre ++ e1 :: mid ++ e2 :: post)) := by
  unfold InputDispatcherModel.outboundFor
  simp only [List.filter_append, List.filter_cons, List.map_append, List.map_cons]
  rw [if_pos (by simpa using h1), if_pos (by simpa using h2)]
  simp only [List.map_cons, List.map_append, List.cons_append, List.append_assoc]
  exact sublist_pair e1.seq e2.seq _ _ _

/-- Witness for C5: two concrete events from device 3 targeted at
connection 7, separated in the inbound queue, appear in arrival order in
connection 7's outbound queue. -/
theorem dispatch_fifo_per_connection_witness :
    List.Sublist [10, 20] (InputDispatcherModel.outboundFor 7
      ([⟨1, 4, [8]⟩] ++ ⟨10, 3, [7]⟩ :: [⟨2, 4, [8]⟩] ++ ⟨20, 3, [7, 8]⟩ :: [⟨3, 3, [7]⟩])) :=
  dispatch_fifo_per_connection [⟨1, 4, [8]⟩] [⟨2, 4, [8]⟩] [⟨3, 3, [7]⟩]
    ⟨10, 3, [7]⟩ ⟨20, 3, [7, 8]⟩ 7 rfl (by decide) (by decide)

namespace InputDispatcherModel

/-! ### C7: drop reasons -/

/-- Embeds the DropReason enumeration of InputDispatcher.h lines 157-165:
NOT_DROPPED marks an event that is not being dropped; the other six values
are the possible reasons for dropping an inbound event. -/
inductive DropReason
  | notDropped
  | policy
  | appSwitch
  | disabled
  | blocked
  | stale
  | noPointerCapture
  deriving DecidableEq, Repr

/-- The observable effects of dropping an inbound event: the entry is
released, and injection failure may be reported to a waiting injector. -/
structure DropEffects where
  released : Bool
  injectionFailureReported : Bool
  deriving DecidableEq, Repr

/-- Modelled from the spec (section 4.1): dropInboundEventLocked — declared
at InputDispatcher.h lines 219-220, body in the absent
InputDispatcher.cpp — performs a drop only for an actual drop reason
(never NOT_DROPPED); every drop releases the entry, and a motion-down
event carrying injection synchronization state reports injection failure
to the waiting injector. -/
def dropInboundEventLocked (e : EventEntry) (reason : DropReason) : Option DropEffects :=
  if reason = DropReason.notDropped then none
  else some
    { released := true
      injectionFailureReported := e.isMotionDown && e.hasInjectionState }

end InputDispatcherModel

/-- C7: every drop of an inbound event carries a reason from exactly the
set {POLICY, APP_SWITCH, DISABLED, BLOCKED, STALE, NO_POINTER_CAPTURE}
(each of those six produces a drop and NOT_DROPPED produces none), every
drop releases the entry, and a motion-down event carrying injection
synchronization state has injection failure reported to the waiting
injector. -/
theorem dropInboundEvent_reasons (e : InputDispatcherModel.EventEntry)
    (r : InputDispatcherModel.DropReason) (eff : InputDispatcherModel.DropEffects)
    (h : InputDispatcherModel.dropInboundEventLocked e r = some eff) :
    (r = InputDispatcherModel.DropReason.policy ∨
      r = InputDispatcherModel.DropReason.appSwitch ∨
      r = InputDispatcherModel.DropReason.disabled ∨
      r = InputDispatcherModel.DropReason.blocked ∨
      r = InputDispatcherModel.DropReason.stale ∨
      r = InputDispatcherModel.DropReason.noPointerCapture) ∧
    eff.released = true ∧
    (e.isMotionDown = true → e.hasInjectionState = true →
      eff.injectionFailureReported = true) ∧
    (∀ r2 : InputDispatcherModel.DropReason, r2 ≠ InputDispatcherModel.DropReason.notDropped →
      (InputDispatcherModel.dropInboundEventLocked e r2).isSome = true) ∧
    InputDispatcherModel.dropInboundEventLocked e
      InputDispatcherModel.DropReason.notDropped = none := by
  unfold InputDispatcherModel.dropInboundEventLocked at h ⊢
  by_cases hr : r = InputDispatcherModel.DropReason.notDropped
  · rw [if_pos hr] at h
    exact Option.noConfusion h
  · rw [if_neg hr] at h
    injection h with he
    subst he
    refine ⟨?_, rfl, ?_, ?_, by simp⟩
    · cases r <;> simp_all
    · intro hm hi
      simp [hm, hi]
    · intro r2 hr2
      rw [if_neg hr2]
      rfl

/-- Witness for C7: dropping a concrete injected motion-down event for the
STALE reason releases it and reports injection failure. -/
theorem dropInboundEvent_reasons_witness :
    (InputDispatcherModel.DropReason.stale = InputDispatcherModel.DropReason.policy ∨
      InputDispatcherModel.DropReason.stale = InputDispatcherModel.DropReason.appSwitch ∨
      InputDispatcherModel.DropReason.stale = InputDispatcherModel.DropReason.disabled ∨
      InputDispatcherModel.DropReason.stale = InputDispatcherModel.DropReason.blocked ∨
      InputDispatcherModel.DropReason.stale = InputDispatcherModel.DropReason.stale ∨
      InputDispatcherModel.DropReason.stale =
        InputDispatcherModel.DropReason.noPointerCapture) ∧
    (⟨true, true⟩ : InputDispatcherModel.DropEffects).released = true ∧
    ((⟨42, 500, 1, true, true⟩ : InputDispatcherModel.EventEntry).isMotionDown = true →
      (⟨42, 500, 1, true, true⟩ : InputDispatcherModel.EventEntry).hasInjectionState = true →
      (⟨true, true⟩ : InputDispatcherModel.DropEffects).injectionFailureReported = true) ∧
    (∀ r2 : InputDispatcherModel.DropReason, r2 ≠ InputDispatcherModel.DropReason.notDropped →
      (InputDispatcherModel.dropInboundEventLocked ⟨42, 500, 1, true, true⟩ r2).isSome = true) ∧
    InputDispatcherModel.dropInboundEventLocked ⟨42, 500, 1, true, true⟩
      InputDispatcherModel.DropReason.notDropped = none :=
  dropInboundEvent_reasons ⟨42, 500, 1, true, true⟩ InputDispatcherModel.DropReason.stale
    ⟨true, true⟩ (by decide)

namespace InputDispatcherModel

/-! ### C8: idempotence of focus resolution -/

/-- Modelled from the spec (section 3, FocusResolver): the window-handle
metadata that focus resolution inspects — the window token, its focusable
flag, and its visibility. FocusResolver.cpp is not in the tree. -/
structure WindowInfo where
  token : Nat
  focusable : Bool
  visible : Bool
  deriving DecidableEq, Repr

/-- Modelled from the spec (section 3, FocusResolver): the focus-change
notification value object — old focused token and new focused token. -/
structure FocusChanges where
  oldToken : Option Nat
  newToken : Option Nat
  deriving DecidableEq, Repr

/-- Modelled from the spec (section 3): the FocusResolver keeps the
current focused-window token for the display. -/
structure FocusResolver where
  focusedToken : Option Nat
  deriving DecidableEq, Repr

/-- Modelled from the spec (section 3, FocusResolver): the focused window
is recomputed from window-handle metadata — the first window that is
focusable and visible wins; focus is empty when no window qualifies. -/
def resolveFocus (windows : List WindowInfo) : Option Nat :=
  (windows.find? (fun w => w.focusable && w.visible)).map (fun w => w.token)

/-- Modelled from the spec (sections 3 and 8): setInputWindows updates the
window set for the display, recomputes focus, and produces a FocusChanges
notification only when the focused token actually changes. -/
def setInputWindows (r : FocusResolver) (windows : List WindowInfo) :
    FocusResolver × Option FocusChanges :=
  let newToken := resolveFocus windows
  if newToken = r.focusedToken then (r, none)
  else ({ focusedToken := newToken }, some ⟨r.focusedToken, newToken⟩)

end InputDispatcherModel

/-- C8: focus resolution is idempotent on an identical window set: after
one setInputWindows call with window set W, calling setInputWindows again
with the same W produces no focus-change notification. -/
theorem setInputWindows_idempotent (r : InputDispatcherModel.FocusResolver)
    (windows : List InputDispatcherModel.WindowInfo) :
    (InputDispatcherModel.setInputWindows
      (InputDispatcherModel.setInputWindows r windows).1 windows).2 = none := by
  unfold InputDispatcherModel.setInputWindows
  by_cases h : InputDispatcherModel.resolveFocus windows = r.focusedToken
  · rw [if_pos h]
    simp only []
    rw [if_pos h]
  · rw [if_neg h]
    simp

namespace InputDispatcherModel

/-! ### C6: synchronous injection timeout with no focused window -/

/-- The injection result codes of the injection API (spec section 6),
restricted to the ones this scenario can produce. -/
inductive InputEventInjectionResult
  | pending
  | succeeded
  | failed
  | timedOut
  deriving DecidableEq, Repr

/-- Modelled from the spec (sections 4.3 and 8): the dispatcher state for
one injected event that requires a focused window — whether the event is
still pending, the mNoFocusedWindowTimeoutTime timer (declared at
InputDispatcher.h line 492), the number of ANRs raised so far against the
awaited focused application, and the injection result once set. -/
structure InjectionScenarioState where
  eventPending : Bool
  noFocusedWindowTimeoutTime : Option Nat
  anrCount : Nat
  injectionResult : Option InputEventInjectionResult
  deriving DecidableEq, Repr

/-- At injection time, the event is pending, no timer is armed, no ANR has
been raised, and no result is set. -/
def initInjection : InjectionScenarioState :=
  { eventPending := true, noFocusedWindowTimeoutTime := none, anrCount := 0,
    injectionResult := none }

/-- Modelled from the spec (section 4.3): one dispatch-loop iteration at
time t for an event that needs a focused window. If a focused window
exists the event is dispatched; otherwise the no-focused-window timer is
armed on first miss, and when it expires without a focused window
appearing, exactly one ANR is raised against the awaited focused
application and the event is dropped, reporting failure to the
injection-synchronization state. -/
def injectionStep (anrTimeout : Nat) (focused : Nat → Bool)
    (s : InjectionScenarioState) (t : Nat) : InjectionScenarioState :=
  if s.eventPending = false then s
  else if focused t then
    { eventPending := false, noFocusedWindowTimeoutTime := none, anrCount := s.anrCount,
      injectionResult := some InputEventInjectionResult.succeeded }
  else
    match s.noFocusedWindowTimeoutTime with
    | none => { s with noFocusedWindowTimeoutTime := some (t + anrTimeout) }
    | some d =>
        if d ≤ t then
          { eventPending := false, noFocusedWindowTimeoutTime := none,
            anrCount := s.anrCount + 1,
            injectionResult := some InputEventInjectionResult.failed }
        else s

/-- The dispatcher state after running the loop for discrete times
0, 1, ..., n-1. -/
def injectionRun (anrTimeout : Nat) (focused : Nat → Bool) (n : Nat) :
    InjectionScenarioState :=
  (List.range n).foldl (injectionStep anrTimeout focused) initInjection

/-- Modelled from the spec (section 5): a synchronous WAIT_FOR_RESULT
injection blocks until a result is set or the caller-supplied timeout
elapses; if no result is set by the timeout it returns TIMED_OUT without
retrying. -/
def injectInputEventResult (anrTimeout : Nat) (focused : Nat → Bool)
    (timeout : Nat) : InputEventInjectionResult :=
  match (injectionRun anrTimeout focused timeout).injectionResult with
  | none => InputEventInjectionResult.timedOut
  | some r => r

theorem injectionRun_succ (anrTimeout : Nat) (focused : Nat → Bool) (n : Nat) :
    injectionRun anrTimeout focused (n + 1) =
    injectionStep anrTimeout focused (injectionRun anrTimeout focused n) n := by
  unfold injectionRun
  rw [List.range_succ, List.foldl_append]
  rfl

theorem injectionRun_waiting (anrTimeout : Nat) (focused : Nat → Bool)
    (hf : ∀ t, focused t = false) : ∀ n : Nat, n ≤ anrTimeout →
    injectionRun anrTimeout focused n =
      if n = 0 then initInjection
      else { eventPending := true, noFocusedWindowTimeoutTime := some anrTimeout,
             anrCount := 0, injectionResult := none } := by
  intro n
  induction n with
  | zero => intro _; rfl
  | succ k ih =>
      intro hk
      rw [injectionRun_succ, ih (Nat.le_of_succ_le hk), if_neg (Nat.succ_ne_zero k)]
      by_cases hk0 : k = 0
      · subst hk0
        simp [injectionStep, initInjection, hf 0]
      · rw [if_neg hk0]
        have hklt : k < anrTimeout := Nat.lt_of_succ_le hk
        simp [injectionStep, hf k, Nat.not_le_of_lt hklt]

theorem injectionRun_fired (anrTimeout : Nat) (focused : Nat → Bool)
    (hf : ∀ t, focused t = false) (hpos : 0 < anrTimeout) :
    ∀ n : Nat, anrTimeout + 1 ≤ n →
    injectionRun anrTimeout focused n =
      { eventPending := false, noFocusedWindowTimeoutTime := none, anrCount := 1,
        injectionResult := some InputEventInjectionResult.failed } := by
  intro n hn
  induction n, hn using Nat.le_induction with
  | base =>
      rw [injectionRun_succ,
        injectionRun_waiting anrTimeout focused hf anrTimeout (Nat.le_refl _),
        if_neg (Nat.pos_iff_ne_zero.mp hpos)]
      simp [injectionStep, hf anrTimeout]
  | succ m hm ih =>
      rw [injectionRun_succ, ih]
      rfl

end InputDispatcherModel

/-- C6: a synchronous WAIT_FOR_RESULT injection of an event that requires a
focused window, with no focused window registered for the whole
caller-supplied timeout (which does not exceed the no-focused-window ANR
timeout), returns TIMED_OUT without retrying, and the dispatcher raises
exactly one ANR against the awaited focused application — at the moment
the no-focused-window timer expires, and never again. -/
theorem injectInputEvent_timeout_one_anr (timeout anrTimeout : Nat)
    (focused : Nat → Bool) (hfocus : ∀ t, focused t = false)
    (hpos : 0 < timeout) (hle : timeout ≤ anrTimeout) :
    InputDispatcherModel.injectInputEventResult anrTimeout focused timeout =
      InputDispatcherModel.InputEventInjectionResult.timedOut ∧
    (∀ n : Nat, (InputDispatcherModel.injectionRun anrTimeout focused n).anrCount =
      if anrTimeout + 1 ≤ n then 1 else 0) := by
  have hapos : 0 < anrTimeout := Nat.lt_of_lt_of_le hpos hle
  constructor
  · unfold InputDispatcherModel.injectInputEventResult
    rw [InputDispatcherModel.injectionRun_waiting anrTimeout focused hfocus timeout hle,
      if_neg (Nat.pos_iff_ne_zero.mp hpos)]
  · intro n
    by_cases hn : anrTimeout + 1 ≤ n
    · rw [if_pos hn,
        InputDispatcherModel.injectionRun_fired anrTimeout focused hfocus hapos n hn]
    · rw [if_neg hn]
      have hn2 : n ≤ anrTimeout := Nat.lt_succ_iff.mp (Nat.lt_of_not_le hn)
      rw [InputDispatcherModel.injectionRun_waiting anrTimeout focused hfocus n hn2]
      by_cases hn0 : n = 0
      · rw [if_pos hn0]; rfl
      · rw [if_neg hn0]

/-- Witness for C6: injecting with a 5-tick timeout while no focused window
ever appears and the no-focused-window timeout is also 5 ticks: the call
times out and exactly one ANR is ever raised. -/
theorem injectInputEvent_timeout_one_anr_witness :
    InputDispatcherModel.injectInputEventResult 5 (fun _ => false) 5 =
      InputDispatcherModel.InputEventInjectionResult.timedOut ∧
    (∀ n : Nat, (InputDispatcherModel.injectionRun 5 (fun _ => false) n).anrCount =
      if 5 + 1 ≤ n then 1 else 0) :=
  injectInputEvent_timeout_one_anr 5 5 (fun _ => false) (fun _ => rfl)
    (by decide) (by decide)
